import Mathlib

/-!
Shallow embedding of the `httpauth` Go package (file `httpauth.go`) and
verification of its natural-language specification.

Go strings are arbitrary byte sequences, modelled as `List Nat` (each byte
`< 256` where it matters).  The middleware is the `handler` struct with its
`fail` and `ServeHTTP` methods; the downstream handler and the verification
predicate are opaque function values, exactly as in the source.  `ServeHTTP`
is embedded as a pure function from the handler configuration, the current
response-writer state and the request to the final response-writer state,
paired with the list of calls made to the verification predicate (so that
"the predicate is invoked with ..." claims are directly statable).
-/

namespace Httpauth

/-- A Go string: a sequence of bytes. -/
abbrev GoStr := List Nat

/-- Byte sequence of an ASCII Lean string literal (all our literals are ASCII,
so the code-point list coincides with the UTF-8 byte list). -/
def goStr (s : String) : GoStr := s.data.map Char.toNat

/-- Embedding of Go `strings.Split(s, sep)` for a one-byte separator `sep`:
splits `s` on every occurrence of `sep`; `Split("", sep) = [""]`. -/
def splitOnByte (sep : Nat) : GoStr → List GoStr
  | [] => [[]]
  | c :: rest =>
    match splitOnByte sep rest with
    | [] => if c = sep then [[], []] else [[c]]
    | h :: t => if c = sep then [] :: h :: t else (c :: h) :: t

/-- Value of a byte in the standard base64 alphabet (`A-Z a-z 0-9 + /`),
as in Go `encoding/base64.StdEncoding`'s decode map; `none` for every
byte outside the alphabet (including the padding byte `=`, code 61). -/
def b64DecodeChar (c : Nat) : Option Nat :=
  if 65 ≤ c ∧ c ≤ 90 then some (c - 65)
  else if 97 ≤ c ∧ c ≤ 122 then some (c - 97 + 26)
  else if 48 ≤ c ∧ c ≤ 57 then some (c - 48 + 52)
  else if c = 43 then some 62
  else if c = 47 then some 63
  else none

/-- Byte of the standard base64 alphabet for a 6-bit value (Go
`StdEncoding`'s encode map). -/
def b64EncChar (v : Nat) : Nat :=
  if v < 26 then 65 + v
  else if v < 52 then 97 + (v - 26)
  else if v < 62 then 48 + (v - 52)
  else if v = 62 then 43
  else 47

/-- Quantum-by-quantum decoding of Go `base64.StdEncoding.DecodeString`
(after newline removal): input is consumed in groups of four bytes; the
final group may end in `=` (two data bytes) or `==` (one data byte), and
nothing may follow padding; any other shape or any byte outside the
alphabet is an error.  Go's default (non-Strict) mode does not check that
unused trailing bits are zero, and neither does this model. -/
def b64DecodeQ : List Nat → Option (List Nat)
  | [] => some []
  | c1 :: c2 :: c3 :: c4 :: rest =>
    match b64DecodeChar c1, b64DecodeChar c2 with
    | some v1, some v2 =>
      if c3 = 61 then
        if c4 = 61 ∧ rest = [] then some [v1 * 4 + v2 / 16] else none
      else
        match b64DecodeChar c3 with
        | some v3 =>
          if c4 = 61 then
            if rest = [] then some [v1 * 4 + v2 / 16, v2 % 16 * 16 + v3 / 4]
            else none
          else
            match b64DecodeChar c4 with
            | some v4 =>
              match b64DecodeQ rest with
              | some bs =>
                some ((v1 * 4 + v2 / 16) :: (v2 % 16 * 16 + v3 / 4) ::
                      (v3 % 4 * 64 + v4) :: bs)
              | none => none
            | none => none
        | none => none
    | _, _ => none
  | _ => none

/-- Embedding of Go `base64.StdEncoding.DecodeString`: carriage returns and
newlines are ignored anywhere in the input, the rest is decoded in
four-byte quanta.  `none` models the `err != nil` case. -/
def b64Decode (s : GoStr) : Option (List Nat) :=
  b64DecodeQ (s.filter fun c => ¬(c = 10 ∨ c = 13))

/-- Embedding of Go `base64.StdEncoding.EncodeToString`: three input bytes
become four alphabet bytes; a final group of one or two bytes is padded
with `==` or `=` (byte 61). -/
def b64Encode : List Nat → GoStr
  | [] => []
  | [b1] => [b64EncChar (b1 / 4), b64EncChar (b1 % 4 * 16), 61, 61]
  | [b1, b2] => [b64EncChar (b1 / 4), b64EncChar (b1 % 4 * 16 + b2 / 16),
                 b64EncChar (b2 % 16 * 4), 61]
  | b1 :: b2 :: b3 :: rest =>
      b64EncChar (b1 / 4) :: b64EncChar (b1 % 4 * 16 + b2 / 16) ::
      b64EncChar (b2 % 16 * 4 + b3 / 64) :: b64EncChar (b3 % 64) ::
      b64Encode rest

/-- An incoming HTTP request, reduced to the only part the middleware reads:
the value returned by `r.Header.Get("Authorization")` (the empty sequence
both when the header is absent and when it is present but empty, exactly
as Go's `Header.Get` reports it). -/
structure Request where
  authorization : GoStr
deriving DecidableEq

/-- Observable state of an `http.ResponseWriter`: the response headers
(ordered, as `Header().Add` appends), the status code once written, and
the body bytes. -/
structure RW where
  headers : List (GoStr × GoStr)
  status : Option Nat
  body : GoStr
deriving DecidableEq

/-- A fresh response writer, nothing written yet. -/
def emptyRW : RW := ⟨[], none, []⟩

/-- The `handler` struct of `httpauth.go`: scheme name (`method`), realm,
downstream success handler, and the verification predicate `auth`. -/
structure Handler where
  method : GoStr
  realm : GoStr
  success : Request → RW → RW
  auth : GoStr → GoStr → Bool

/-- The `Basic` constructor of `httpauth.go`: fixes the scheme to the
literal `"Basic"` and stores realm, downstream handler and predicate. -/
def Basic (realm : GoStr) (onSuccess : Request → RW → RW)
    (authFunc : GoStr → GoStr → Bool) : Handler :=
  ⟨goStr "Basic", realm, onSuccess, authFunc⟩

/-- The challenge header value `fmt.Sprintf("%s realm=\x22%s\x22", h.method,
h.realm)` built by `handler.fail`. -/
def challengeValue (h : Handler) : GoStr :=
  h.method ++ (goStr " realm=\"" ++ (h.realm ++ goStr "\""))

/-- The `handler.fail` method: `Header().Add("WWW-Authenticate", ...)`
followed by `WriteHeader(401)`; the body is untouched. -/
def Handler.fail (h : Handler) (w : RW) : RW :=
  { headers := w.headers ++ [(goStr "WWW-Authenticate", challengeValue h)]
    status := some 401
    body := w.body }

/-- The `handler.ServeHTTP` method, line for line: read the Authorization
header; reject when empty; split on single spaces and require exactly two
tokens; require the first token to equal `h.method`; base64-decode the
second token; split the decoded bytes on `:` and require exactly two
segments; call `h.auth(user, pass)`; on `true` call the downstream
handler with the original writer and request, otherwise reject.  The
second component of the result records every call made to `h.auth`. -/
def serveHTTP (h : Handler) (w : RW) (r : Request) :
    RW × List (GoStr × GoStr) :=
  let a := r.authorization
  if a = [] then (h.fail w, [])
  else
    match splitOnByte 32 a with
    | [p0, p1] =>
      if p0 ≠ h.method then (h.fail w, [])
      else
        match b64Decode p1 with
        | none => (h.fail w, [])
        | some creds =>
          match splitOnByte 58 creds with
          | [u, p] =>
            if h.auth u p then (h.success r w, [(u, p)])
            else (h.fail w, [(u, p)])
          | _ => (h.fail w, [])
    | _ => (h.fail w, [])

/-- Decision of the pipeline of `ServeHTTP`, `true` when control reaches
`h.success.ServeHTTP(w, r)` and `false` when it reaches `h.fail(w)`. -/
def serveDecision (h : Handler) (r : Request) : Bool :=
  let a := r.authorization
  if a = [] then false
  else
    match splitOnByte 32 a with
    | [p0, p1] =>
      if p0 ≠ h.method then false
      else
        match b64Decode p1 with
        | none => false
        | some creds =>
          match splitOnByte 58 creds with
          | [u, p] => h.auth u p
          | _ => false
    | _ => false

/-- True exactly when `ServeHTTP` rejects the request before line 70, i.e.
before the verification predicate is consulted (steps 1 to 5 of the
specified pipeline). -/
def earlyReject (h : Handler) (a : GoStr) : Bool :=
  if a = [] then true
  else
    match splitOnByte 32 a with
    | [p0, p1] =>
      if p0 ≠ h.method then true
      else
        match b64Decode p1 with
        | none => true
        | some creds =>
          match splitOnByte 58 creds with
          | [_, _] => false
          | _ => true
    | _ => true

/-- A sequence of independent requests served by one middleware instance,
each against a fresh response writer, as the hosting server would do. -/
def serveSeq (h : Handler) (rs : List Request) : List (RW × List (GoStr × GoStr)) :=
  rs.map (serveHTTP h emptyRW)

/-! ## Lemmas about `splitOnByte` (Go `strings.Split` with a one-byte sep) -/

theorem splitOnByte_ne_nil (sep : Nat) (s : GoStr) : splitOnByte sep s ≠ [] := by
  cases s with
  | nil => simp [splitOnByte]
  | cons c rest =>
    simp only [splitOnByte]
    split <;> split <;> simp

theorem splitOnByte_no_sep {sep : Nat} {s : GoStr} (h : ∀ c ∈ s, c ≠ sep) :
    splitOnByte sep s = [s] := by
  induction s with
  | nil => rfl
  | cons c rest ih =>
    have hc : c ≠ sep := h c (by simp)
    have hr := ih fun x hx => h x (by simp [hx])
    simp [splitOnByte, hr, hc]

theorem splitOnByte_append {sep : Nat} {x : GoStr} (y : GoStr)
    (hx : ∀ c ∈ x, c ≠ sep) :
    splitOnByte sep (x ++ sep :: y) = x :: splitOnByte sep y := by
  induction x with
  | nil =>
    rcases hsy : splitOnByte sep y with _ | ⟨h1, t⟩
    · exact absurd hsy (splitOnByte_ne_nil sep y)
    · simp [splitOnByte, hsy]
  | cons c rest ih =>
    have hc : c ≠ sep := hx c (by simp)
    have hr := ih fun a ha => hx a (by simp [ha])
    rcases hsy : splitOnByte sep y with _ | ⟨h1, t⟩
    · exact absurd hsy (splitOnByte_ne_nil sep y)
    · simp only [List.cons_append, splitOnByte, List.append_eq, hr, hsy]
      simp [hc]

theorem splitOnByte_pair {sep : Nat} {x y : GoStr}
    (hx : ∀ c ∈ x, c ≠ sep) (hy : ∀ c ∈ y, c ≠ sep) :
    splitOnByte sep (x ++ sep :: y) = [x, y] := by
  rw [splitOnByte_append y hx, splitOnByte_no_sep hy]

/-! ## Lemmas about the base64 embedding -/

theorem b64EncChar_ge (v : Nat) : 43 ≤ b64EncChar v := by
  unfold b64EncChar; split_ifs <;> omega

theorem b64DecodeChar_b64EncChar : ∀ v < 64, b64DecodeChar (b64EncChar v) = some v := by
  decide

theorem b64EncChar_ne_pad : ∀ v < 64, b64EncChar v ≠ 61 := by
  decide

theorem b64Encode_ge : ∀ (s : List Nat), ∀ c ∈ b64Encode s, 43 ≤ c := by
  intro s
  induction s using b64Encode.induct with
  | case1 => simp [b64Encode]
  | case2 b1 =>
    intro c hc
    simp only [b64Encode, List.mem_cons, List.not_mem_nil, or_false] at hc
    rcases hc with rfl | rfl | rfl | rfl
    · exact b64EncChar_ge _
    · exact b64EncChar_ge _
    · omega
    · omega
  | case3 b1 b2 =>
    intro c hc
    simp only [b64Encode, List.mem_cons, List.not_mem_nil, or_false] at hc
    rcases hc with rfl | rfl | rfl | rfl
    · exact b64EncChar_ge _
    · exact b64EncChar_ge _
    · exact b64EncChar_ge _
    · omega
  | case4 b1 b2 b3 rest ih =>
    intro c hc
    simp only [b64Encode, List.mem_cons] at hc
    rcases hc with rfl | rfl | rfl | rfl | hc
    · exact b64EncChar_ge _
    · exact b64EncChar_ge _
    · exact b64EncChar_ge _
    · exact b64EncChar_ge _
    · exact ih c hc

theorem b64_roundtrip_aux (n : Nat) : ∀ (s : List Nat), s.length ≤ n →
    (∀ b ∈ s, b < 256) → b64DecodeQ (b64Encode s) = some s := by
  induction n with
  | zero =>
    intro s hs _
    have : s = [] := List.eq_nil_of_length_eq_zero (Nat.le_zero.mp hs)
    subst this; rfl
  | succ n ih =>
    intro s hs hb
    rcases s with _ | ⟨b1, _ | ⟨b2, _ | ⟨b3, rest⟩⟩⟩
    · rfl
    · have hb1 : b1 < 256 := hb b1 (by simp)
      have h1 := b64DecodeChar_b64EncChar (b1 / 4) (by omega)
      have h2 := b64DecodeChar_b64EncChar (b1 % 4 * 16) (by omega)
      simp only [b64Encode, b64DecodeQ, h1, h2]
      simp only [if_pos rfl, and_self, if_true]
      have : b1 / 4 * 4 + b1 % 4 * 16 / 16 = b1 := by omega
      rw [this]
    · have hb1 : b1 < 256 := hb b1 (by simp)
      have hb2 : b2 < 256 := hb b2 (by simp)
      have h1 := b64DecodeChar_b64EncChar (b1 / 4) (by omega)
      have h2 := b64DecodeChar_b64EncChar (b1 % 4 * 16 + b2 / 16) (by omega)
      have h3 := b64DecodeChar_b64EncChar (b2 % 16 * 4) (by omega)
      have hne3 : b64EncChar (b2 % 16 * 4) ≠ 61 := b64EncChar_ne_pad _ (by omega)
      simp only [b64Encode, b64DecodeQ, h1, h2, h3, if_neg hne3, if_pos rfl, if_true]
      have e1 : b1 / 4 * 4 + (b1 % 4 * 16 + b2 / 16) / 16 = b1 := by omega
      have e2 : (b1 % 4 * 16 + b2 / 16) % 16 * 16 + b2 % 16 * 4 / 4 = b2 := by omega
      rw [e1, e2]
    · have hb1 : b1 < 256 := hb b1 (by simp)
      have hb2 : b2 < 256 := hb b2 (by simp)
      have hb3 : b3 < 256 := hb b3 (by simp)
      have h1 := b64DecodeChar_b64EncChar (b1 / 4) (by omega)
      have h2 := b64DecodeChar_b64EncChar (b1 % 4 * 16 + b2 / 16) (by omega)
      have h3 := b64DecodeChar_b64EncChar (b2 % 16 * 4 + b3 / 64) (by omega)
      have h4 := b64DecodeChar_b64EncChar (b3 % 64) (by omega)
      have hne3 : b64EncChar (b2 % 16 * 4 + b3 / 64) ≠ 61 := b64EncChar_ne_pad _ (by omega)
      have hne4 : b64EncChar (b3 % 64) ≠ 61 := b64EncChar_ne_pad _ (by omega)
      have hrest : b64DecodeQ (b64Encode rest) = some rest := by
        refine ih rest ?_ fun b hbm => hb b (by simp [hbm])
        simp only [List.length_cons] at hs
        omega
      simp only [b64Encode, b64DecodeQ, h1, h2, h3, h4, if_neg hne3, if_neg hne4, hrest]
      have e1 : b1 / 4 * 4 + (b1 % 4 * 16 + b2 / 16) / 16 = b1 := by omega
      have e2 : (b1 % 4 * 16 + b2 / 16) % 16 * 16 + (b2 % 16 * 4 + b3 / 64) / 4 = b2 := by
        omega
      have e3 : (b2 % 16 * 4 + b3 / 64) % 4 * 64 + b3 % 64 = b3 := by omega
      rw [e1, e2, e3]

theorem b64Decode_b64Encode {s : List Nat} (hs : ∀ b ∈ s, b < 256) :
    b64Decode (b64Encode s) = some s := by
  unfold b64Decode
  have hf : (b64Encode s).filter (fun c => ¬(c = 10 ∨ c = 13)) = b64Encode s := by
    apply List.filter_eq_self.mpr
    intro a ha
    have := b64Encode_ge s a ha
    simp only [decide_eq_true_eq]
    omega
  rw [hf]
  exact b64_roundtrip_aux s.length s le_rfl hs

/-! ## Reduction lemmas for `serveHTTP` -/

theorem auth_ne_nil_of_split {a t0 t1 : GoStr}
    (h : splitOnByte 32 a = [t0, t1]) : a ≠ [] := by
  intro he
  subst he
  simp [splitOnByte] at h

theorem serveHTTP_of_empty (h : Handler) (w : RW) (r : Request)
    (ha : r.authorization = []) : serveHTTP h w r = (h.fail w, []) := by
  simp [serveHTTP, ha]

theorem serveHTTP_of_scheme_mismatch (h : Handler) (w : RW) (r : Request)
    {t0 t1 : GoStr} (hs : splitOnByte 32 r.authorization = [t0, t1])
    (hm : t0 ≠ h.method) : serveHTTP h w r = (h.fail w, []) := by
  have ha := auth_ne_nil_of_split hs
  simp [serveHTTP, ha, hs, hm]

theorem serveHTTP_of_bad_b64 (h : Handler) (w : RW) (r : Request)
    {t1 : GoStr} (hs : splitOnByte 32 r.authorization = [h.method, t1])
    (hd : b64Decode t1 = none) : serveHTTP h w r = (h.fail w, []) := by
  have ha := auth_ne_nil_of_split hs
  simp [serveHTTP, ha, hs, hd]

theorem serveHTTP_of_bad_colon (h : Handler) (w : RW) (r : Request)
    {t1 creds : GoStr} (hs : splitOnByte 32 r.authorization = [h.method, t1])
    (hd : b64Decode t1 = some creds)
    (hc : (splitOnByte 58 creds).length ≠ 2) :
    serveHTTP h w r = (h.fail w, []) := by
  have ha := auth_ne_nil_of_split hs
  rcases hsp : splitOnByte 58 creds with _ | ⟨u, _ | ⟨p, _ | ⟨x, xs⟩⟩⟩
  · simp [serveHTTP, ha, hs, hd, hsp]
  · simp [serveHTTP, ha, hs, hd, hsp]
  · exact absurd (by rw [hsp]; rfl) hc
  · simp [serveHTTP, ha, hs, hd, hsp]

theorem serveHTTP_auth (h : Handler) (w : RW) (r : Request)
    {t1 creds u p : GoStr}
    (hs : splitOnByte 32 r.authorization = [h.method, t1])
    (hd : b64Decode t1 = some creds)
    (hc : splitOnByte 58 creds = [u, p]) :
    serveHTTP h w r =
      (if h.auth u p then h.success r w else h.fail w, [(u, p)]) := by
  have ha := auth_ne_nil_of_split hs
  by_cases hauth : h.auth u p <;> simp [serveHTTP, ha, hs, hd, hc, hauth]

theorem serveHTTP_fst_eq_decision (h : Handler) (w : RW) (r : Request) :
    (serveHTTP h w r).1 =
      if serveDecision h r then h.success r w else h.fail w := by
  by_cases ha : r.authorization = []
  · simp [serveHTTP, serveDecision, ha]
  · rcases hsp : splitOnByte 32 r.authorization with _ | ⟨t0, _ | ⟨t1, _ | ⟨t2, ts⟩⟩⟩
    · simp [serveHTTP, serveDecision, ha, hsp]
    · simp [serveHTTP, serveDecision, ha, hsp]
    · by_cases hm : t0 = h.method
      · subst hm
        rcases hd : b64Decode t1 with _ | creds
        · simp [serveHTTP, serveDecision, ha, hsp, hd]
        · rcases hcs : splitOnByte 58 creds with _ | ⟨u, _ | ⟨p, _ | ⟨x, xs⟩⟩⟩
          · simp [serveHTTP, serveDecision, ha, hsp, hd, hcs]
          · simp [serveHTTP, serveDecision, ha, hsp, hd, hcs]
          · by_cases hauth : h.auth u p <;>
              simp [serveHTTP, serveDecision, ha, hsp, hd, hcs, hauth]
          · simp [serveHTTP, serveDecision, ha, hsp, hd, hcs]
      · simp [serveHTTP, serveDecision, ha, hsp, hm]
    · simp [serveHTTP, serveDecision, ha, hsp]

theorem serveHTTP_of_earlyReject (h : Handler) (w : RW) (r : Request)
    (he : earlyReject h r.authorization = true) :
    serveHTTP h w r = (h.fail w, []) := by
  by_cases ha : r.authorization = []
  · exact serveHTTP_of_empty h w r ha
  · rcases hsp : splitOnByte 32 r.authorization with _ | ⟨t0, _ | ⟨t1, _ | ⟨t2, ts⟩⟩⟩
    · simp [serveHTTP, ha, hsp]
    · simp [serveHTTP, ha, hsp]
    · by_cases hm : t0 = h.method
      · subst hm
        rcases hd : b64Decode t1 with _ | creds
        · simp [serveHTTP, ha, hsp, hd]
        · rcases hcs : splitOnByte 58 creds with _ | ⟨u, _ | ⟨p, _ | ⟨x, xs⟩⟩⟩
          · simp [serveHTTP, ha, hsp, hd, hcs]
          · simp [serveHTTP, ha, hsp, hd, hcs]
          · exfalso
            simp [earlyReject, ha, hsp, hd, hcs] at he
          · simp [serveHTTP, ha, hsp, hd, hcs]
      · simp [serveHTTP, ha, hsp, hm]
    · simp [serveHTTP, ha, hsp]

/-! ## Concrete instances used by the witnesses -/

/-- A concrete downstream handler, as in the repository's test: it writes
the body `test-good` (and a 200 status). -/
def succW : Request → RW → RW :=
  fun _ w => { w with status := some 200, body := w.body ++ goStr "test-good" }

/-- A concrete verification predicate, as in the repository's example:
accepts exactly the pair (`test`, `nothing`). -/
def authW : GoStr → GoStr → Bool :=
  fun u p => decide (u = goStr "test" ∧ p = goStr "nothing")

/-- A verification predicate that always accepts. -/
def authTrue : GoStr → GoStr → Bool := fun _ _ => true

/-- A verification predicate that always rejects. -/
def authFalse : GoStr → GoStr → Bool := fun _ _ => false

/-- A concrete middleware instance, as built by
`Basic("test-realm", ..., ...)` in the repository's test. -/
def hW : Handler := Basic (goStr "test-realm") succW authW

/-! ## The claims -/

/-- C1: for every incoming request, exactly one of two effects occurs:
either the challenge is written (`h.fail`, which adds the single
`WWW-Authenticate` header and writes status 401) or the downstream
handler is invoked with the original request — never both and never
neither.  The pipeline decision `serveDecision` selects which one, so the
final writer state is `h.success r w` exactly when the decision is to
forward and `h.fail w` exactly otherwise. -/
theorem c1_exactly_one_effect (h : Handler) (w : RW) (r : Request) :
    (serveHTTP h w r).1 =
      if serveDecision h r then h.success r w else h.fail w :=
  serveHTTP_fst_eq_decision h w r

/-- C2: every request rejected by the pipeline of a `Basic`-constructed
handler gets status 401, exactly one appended header named
`WWW-Authenticate` whose value is `Basic realm="<realm>"` with the realm
spliced in verbatim, and an unchanged body (the middleware writes no
body). -/
theorem c2_challenge_response (realm : GoStr) (succ : Request → RW → RW)
    (authFunc : GoStr → GoStr → Bool) (w : RW) (r : Request)
    (hrej : serveDecision (Basic realm succ authFunc) r = false) :
    (serveHTTP (Basic realm succ authFunc) w r).1 =
      { headers := w.headers ++ [(goStr "WWW-Authenticate",
          goStr "Basic realm=\"" ++ (realm ++ goStr "\""))]
        status := some 401
        body := w.body } := by
  rw [serveHTTP_fst_eq_decision, hrej]
  simp only [Bool.false_eq_true, if_false]
  show Handler.fail _ w = _
  unfold Handler.fail challengeValue Basic
  have hpre : goStr "Basic" ++ goStr " realm=\"" = goStr "Basic realm=\"" := by decide
  rw [← List.append_assoc, hpre]

/-- Witness for C2 at a concrete input: the missing-header request against
the test-realm handler is rejected with exactly the challenge response. -/
theorem c2_challenge_response_witness :
    serveDecision (Basic (goStr "test-realm") succW authW) ⟨[]⟩ = false ∧
    (serveHTTP (Basic (goStr "test-realm") succW authW) emptyRW ⟨[]⟩).1 =
      { headers := emptyRW.headers ++ [(goStr "WWW-Authenticate",
          goStr "Basic realm=\"" ++ (goStr "test-realm" ++ goStr "\""))]
        status := some 401
        body := emptyRW.body } :=
  ⟨by decide, c2_challenge_response (goStr "test-realm") succW authW emptyRW ⟨[]⟩ (by decide)⟩

/-- C3, counterexample to the claim as stated: with username `a` and
password `b:c`, sending `Basic base64("a:b:c")` does NOT call the
verification predicate with (`a`, `b:c`) — the decoded payload splits on
the colon into three segments, so the request is rejected at step 5 and
the predicate is never called (the recorded call list is empty, not
`[("a", "b:c")]`). -/
theorem c3_counterexample :
    (serveHTTP (Basic (goStr "r") succW authTrue) emptyRW
      ⟨goStr "Basic " ++ b64Encode (goStr "a" ++ 58 :: goStr "b:c")⟩).2 ≠
      [(goStr "a", goStr "b:c")] := by
  decide

/-- C3 as amended: for every username and every password, both arbitrary
byte strings in which no byte is the colon (58), sending a request whose
Authorization header is `Basic ` followed by the standard base64 encoding
of `username:password` results in the verification predicate being called
with exactly (username, password), with no transformation. -/
theorem c3_roundtrip_amended (realm : GoStr) (succ : Request → RW → RW)
    (authFunc : GoStr → GoStr → Bool) (w : RW) (u p : GoStr)
    (hu256 : ∀ b ∈ u, b < 256) (hp256 : ∀ b ∈ p, b < 256)
    (hu : ∀ b ∈ u, b ≠ 58) (hp : ∀ b ∈ p, b ≠ 58) :
    (serveHTTP (Basic realm succ authFunc) w
      ⟨goStr "Basic " ++ b64Encode (u ++ 58 :: p)⟩).2 = [(u, p)] := by
  have hsplit32 : splitOnByte 32 (goStr "Basic " ++ b64Encode (u ++ 58 :: p)) =
      [goStr "Basic", b64Encode (u ++ 58 :: p)] := by
    have h0 : goStr "Basic " = goStr "Basic" ++ [32] := by decide
    rw [h0, List.append_assoc, List.singleton_append]
    refine splitOnByte_pair (by decide) fun c hc => ?_
    have := b64Encode_ge _ c hc
    omega
  have hdec : b64Decode (b64Encode (u ++ 58 :: p)) = some (u ++ 58 :: p) := by
    refine b64Decode_b64Encode fun b hb => ?_
    rcases List.mem_append.mp hb with hb | hb
    · exact hu256 b hb
    · rcases List.mem_cons.mp hb with rfl | hb
      · omega
      · exact hp256 b hb
  have hsplit58 : splitOnByte 58 (u ++ 58 :: p) = [u, p] := splitOnByte_pair hu hp
  have hmain := serveHTTP_auth (Basic realm succ authFunc) w
      ⟨goStr "Basic " ++ b64Encode (u ++ 58 :: p)⟩ hsplit32 hdec hsplit58
  rw [hmain]

/-- Witness for the amended C3: username `test` and password `nothing/123`
(colon-free) reach the predicate exactly as themselves. -/
theorem c3_roundtrip_amended_witness :
    (∀ b ∈ goStr "test", b < 256) ∧ (∀ b ∈ goStr "nothing/123", b < 256) ∧
    (∀ b ∈ goStr "test", b ≠ 58) ∧ (∀ b ∈ goStr "nothing/123", b ≠ 58) ∧
    (serveHTTP (Basic (goStr "test-realm") succW authW) emptyRW
      ⟨goStr "Basic " ++ b64Encode (goStr "test" ++ 58 :: goStr "nothing/123")⟩).2 =
      [(goStr "test", goStr "nothing/123")] :=
  ⟨by decide, by decide, by decide, by decide,
   c3_roundtrip_amended (goStr "test-realm") succW authW emptyRW
     (goStr "test") (goStr "nothing/123") (by decide) (by decide) (by decide) (by decide)⟩

/-- C4: a request whose Authorization header passes the two-token and
scheme checks and whose second token is valid base64, but whose decoded
payload does not split on the colon into exactly two segments, is
rejected with status 401; the verification predicate is never consulted
(the recorded call list is empty), so its result cannot affect the
outcome. -/
theorem c4_colon_count_reject (h : Handler) (w : RW) (r : Request)
    (t1 creds : GoStr)
    (hs : splitOnByte 32 r.authorization = [h.method, t1])
    (hd : b64Decode t1 = some creds)
    (hc : (splitOnByte 58 creds).length ≠ 2) :
    serveHTTP h w r = (h.fail w, []) ∧
    (serveHTTP h w r).1.status = some 401 := by
  have hmain := serveHTTP_of_bad_colon h w r hs hd hc
  exact ⟨hmain, by rw [hmain]; rfl⟩

/-- Witness for C4 at the spec's example: the header decoding to
`test:nothing/123:abs` (three colon-separated segments) yields 401 and no
predicate call. -/
theorem c4_colon_count_reject_witness :
    splitOnByte 32 (goStr "Basic dGVzdDpub3RoaW5nLzEyMzphYnM=") =
      [hW.method, goStr "dGVzdDpub3RoaW5nLzEyMzphYnM="] ∧
    b64Decode (goStr "dGVzdDpub3RoaW5nLzEyMzphYnM=") =
      some (goStr "test:nothing/123:abs") ∧
    (splitOnByte 58 (goStr "test:nothing/123:abs")).length ≠ 2 ∧
    (serveHTTP hW emptyRW ⟨goStr "Basic dGVzdDpub3RoaW5nLzEyMzphYnM="⟩ =
        (hW.fail emptyRW, []) ∧
      (serveHTTP hW emptyRW ⟨goStr "Basic dGVzdDpub3RoaW5nLzEyMzphYnM="⟩).1.status =
        some 401) :=
  ⟨by decide, by decide, by decide,
   c4_colon_count_reject hW emptyRW ⟨goStr "Basic dGVzdDpub3RoaW5nLzEyMzphYnM="⟩
     (goStr "dGVzdDpub3RoaW5nLzEyMzphYnM=") (goStr "test:nothing/123:abs")
     (by decide) (by decide) (by decide)⟩

/-- C5: a request whose Authorization header splits on single spaces into
exactly two tokens whose first token is not the literal `Basic` (exact,
case-sensitive comparison) is rejected by a `Basic`-constructed handler
with status 401, whatever the second token holds; the predicate is never
called. -/
theorem c5_scheme_mismatch_reject (realm : GoStr) (succ : Request → RW → RW)
    (authFunc : GoStr → GoStr → Bool) (w : RW) (r : Request)
    (t0 t1 : GoStr)
    (hs : splitOnByte 32 r.authorization = [t0, t1])
    (hm : t0 ≠ goStr "Basic") :
    serveHTTP (Basic realm succ authFunc) w r =
      ((Basic realm succ authFunc).fail w, []) ∧
    (serveHTTP (Basic realm succ authFunc) w r).1.status = some 401 := by
  have hmain := serveHTTP_of_scheme_mismatch (Basic realm succ authFunc) w r hs hm
  exact ⟨hmain, by rw [hmain]; rfl⟩

/-- Witness for C5 at the repository test's input `Digest askd=`: the
scheme token `Digest` is rejected even though the second token is valid
base64. -/
theorem c5_scheme_mismatch_reject_witness :
    splitOnByte 32 (goStr "Digest askd=") = [goStr "Digest", goStr "askd="] ∧
    goStr "Digest" ≠ goStr "Basic" ∧
    (serveHTTP (Basic (goStr "test-realm") succW authW) emptyRW
        ⟨goStr "Digest askd="⟩ =
        ((Basic (goStr "test-realm") succW authW).fail emptyRW, []) ∧
      (serveHTTP (Basic (goStr "test-realm") succW authW) emptyRW
        ⟨goStr "Digest askd="⟩).1.status = some 401) :=
  ⟨by decide, by decide,
   c5_scheme_mismatch_reject (goStr "test-realm") succW authW emptyRW
     ⟨goStr "Digest askd="⟩ (goStr "Digest") (goStr "askd=") (by decide) (by decide)⟩

/-- C6: when the decoded payload splits on the colon into exactly the two
segments `u` and `p` (after the earlier header checks pass), the
verification predicate is invoked with exactly that pair, verbatim (the
recorded call list is precisely `[(u, p)]`, whatever bytes — including
`/` — or empty strings the segments hold), and if the predicate answers
`true` the downstream handler is invoked with the original, unmodified
request and writer. -/
theorem c6_predicate_exact_args (h : Handler) (w : RW) (r : Request)
    (t1 creds u p : GoStr)
    (hs : splitOnByte 32 r.authorization = [h.method, t1])
    (hd : b64Decode t1 = some creds)
    (hc : splitOnByte 58 creds = [u, p]) :
    (serveHTTP h w r).2 = [(u, p)] ∧
    (h.auth u p = true → (serveHTTP h w r).1 = h.success r w) := by
  have hmain := serveHTTP_auth h w r hs hd hc
  refine ⟨by rw [hmain], fun hauth => ?_⟩
  rw [hmain]
  simp [hauth]

/-- Witness for C6 at the spec's example: the header decoding to
`test:nothing/123` yields the predicate call (`test`, `nothing/123`), and
with an accepting predicate the downstream handler receives the original
request. -/
theorem c6_predicate_exact_args_witness :
    splitOnByte 32 (goStr "Basic dGVzdDpub3RoaW5nLzEyMw==") =
      [(Basic (goStr "test-realm") succW authTrue).method,
       goStr "dGVzdDpub3RoaW5nLzEyMw=="] ∧
    b64Decode (goStr "dGVzdDpub3RoaW5nLzEyMw==") =
      some (goStr "test:nothing/123") ∧
    splitOnByte 58 (goStr "test:nothing/123") =
      [goStr "test", goStr "nothing/123"] ∧
    ((serveHTTP (Basic (goStr "test-realm") succW authTrue) emptyRW
        ⟨goStr "Basic dGVzdDpub3RoaW5nLzEyMw=="⟩).2 =
        [(goStr "test", goStr "nothing/123")] ∧
      ((Basic (goStr "test-realm") succW authTrue).auth (goStr "test")
          (goStr "nothing/123") = true →
        (serveHTTP (Basic (goStr "test-realm") succW authTrue) emptyRW
          ⟨goStr "Basic dGVzdDpub3RoaW5nLzEyMw=="⟩).1 =
        (Basic (goStr "test-realm") succW authTrue).success
          ⟨goStr "Basic dGVzdDpub3RoaW5nLzEyMw=="⟩ emptyRW)) :=
  ⟨by decide, by decide, by decide,
   c6_predicate_exact_args (Basic (goStr "test-realm") succW authTrue) emptyRW
     ⟨goStr "Basic dGVzdDpub3RoaW5nLzEyMw=="⟩
     (goStr "dGVzdDpub3RoaW5nLzEyMw==") (goStr "test:nothing/123")
     (goStr "test") (goStr "nothing/123") (by decide) (by decide) (by decide)⟩

/-- C7: any two rejected requests — whatever the rejection cause — produce
observably identical middleware responses against the same initial writer
state: same status, same headers, same body; the client cannot tell the
failure causes apart. -/
theorem c7_rejections_indistinguishable (h : Handler) (w : RW)
    (r1 r2 : Request)
    (h1 : serveDecision h r1 = false) (h2 : serveDecision h r2 = false) :
    (serveHTTP h w r1).1 = (serveHTTP h w r2).1 := by
  rw [serveHTTP_fst_eq_decision, serveHTTP_fst_eq_decision, h1, h2]
  simp

/-- Witness for C7: a missing-header rejection and a wrong-password
rejection (valid header, predicate answers false) produce identical
responses. -/
theorem c7_rejections_indistinguishable_witness :
    serveDecision hW ⟨[]⟩ = false ∧
    serveDecision hW ⟨goStr "Basic dGVzdDpub3RoaW5nLzEyMw=="⟩ = false ∧
    (serveHTTP hW emptyRW ⟨[]⟩).1 =
      (serveHTTP hW emptyRW ⟨goStr "Basic dGVzdDpub3RoaW5nLzEyMw=="⟩).1 :=
  ⟨by decide, by decide,
   c7_rejections_indistinguishable hW emptyRW ⟨[]⟩
     ⟨goStr "Basic dGVzdDpub3RoaW5nLzEyMw=="⟩ (by decide) (by decide)⟩

/-- C8: the middleware keeps no state between requests.  The handler value
(scheme, realm, downstream handler, predicate) is immutable — `serveHTTP`
only reads it — so the outcome of a request is a pure function of the
request and the predicate's current answer.  With credentials (u, p) in
the request: a predicate now answering `true` forwards, the identical
request against the same configuration but a predicate now answering
`false` yields the 401 challenge (no caching of the earlier acceptance),
and serving the same valid request twice in a row forwards identically
both times. -/
theorem c8_stateless (mth realm : GoStr) (succ : Request → RW → RW)
    (auth1 auth2 : GoStr → GoStr → Bool) (w : RW) (r : Request)
    (t1 creds u p : GoStr)
    (hs : splitOnByte 32 r.authorization = [mth, t1])
    (hd : b64Decode t1 = some creds)
    (hc : splitOnByte 58 creds = [u, p])
    (h1 : auth1 u p = true) (h2 : auth2 u p = false) :
    (serveHTTP ⟨mth, realm, succ, auth1⟩ w r).1 = succ r w ∧
    (serveHTTP ⟨mth, realm, succ, auth2⟩ w r).1 =
      Handler.fail ⟨mth, realm, succ, auth2⟩ w ∧
    serveSeq ⟨mth, realm, succ, auth1⟩ [r, r] =
      [serveHTTP ⟨mth, realm, succ, auth1⟩ emptyRW r,
       serveHTTP ⟨mth, realm, succ, auth1⟩ emptyRW r] := by
  have e1 := serveHTTP_auth ⟨mth, realm, succ, auth1⟩ w r hs hd hc
  have e2 := serveHTTP_auth ⟨mth, realm, succ, auth2⟩ w r hs hd hc
  refine ⟨?_, ?_, by simp [serveSeq]⟩
  · rw [e1]
    simp only [h1]
    rfl
  · rw [e2]
    simp only [h2]
    rfl

/-- Witness for C8: the test vector `Basic dGVzdDpub3RoaW5nLzEyMw==` is
forwarded by an always-true predicate and rejected by an always-false
one, same configuration otherwise. -/
theorem c8_stateless_witness :
    splitOnByte 32 (goStr "Basic dGVzdDpub3RoaW5nLzEyMw==") =
      [goStr "Basic", goStr "dGVzdDpub3RoaW5nLzEyMw=="] ∧
    b64Decode (goStr "dGVzdDpub3RoaW5nLzEyMw==") =
      some (goStr "test:nothing/123") ∧
    splitOnByte 58 (goStr "test:nothing/123") =
      [goStr "test", goStr "nothing/123"] ∧
    authTrue (goStr "test") (goStr "nothing/123") = true ∧
    authFalse (goStr "test") (goStr "nothing/123") = false ∧
    ((serveHTTP ⟨goStr "Basic", goStr "test-realm", succW, authTrue⟩ emptyRW
        ⟨goStr "Basic dGVzdDpub3RoaW5nLzEyMw=="⟩).1 =
        succW ⟨goStr "Basic dGVzdDpub3RoaW5nLzEyMw=="⟩ emptyRW ∧
      (serveHTTP ⟨goStr "Basic", goStr "test-realm", succW, authFalse⟩ emptyRW
        ⟨goStr "Basic dGVzdDpub3RoaW5nLzEyMw=="⟩).1 =
        Handler.fail ⟨goStr "Basic", goStr "test-realm", succW, authFalse⟩ emptyRW ∧
      serveSeq ⟨goStr "Basic", goStr "test-realm", succW, authTrue⟩
        [⟨goStr "Basic dGVzdDpub3RoaW5nLzEyMw=="⟩,
         ⟨goStr "Basic dGVzdDpub3RoaW5nLzEyMw=="⟩] =
        [serveHTTP ⟨goStr "Basic", goStr "test-realm", succW, authTrue⟩ emptyRW
          ⟨goStr "Basic dGVzdDpub3RoaW5nLzEyMw=="⟩,
         serveHTTP ⟨goStr "Basic", goStr "test-realm", succW, authTrue⟩ emptyRW
          ⟨goStr "Basic dGVzdDpub3RoaW5nLzEyMw=="⟩]) :=
  ⟨by decide, by decide, by decide, by decide, by decide,
   c8_stateless (goStr "Basic") (goStr "test-realm") succW authTrue authFalse
     emptyRW ⟨goStr "Basic dGVzdDpub3RoaW5nLzEyMw=="⟩
     (goStr "dGVzdDpub3RoaW5nLzEyMw==") (goStr "test:nothing/123")
     (goStr "test") (goStr "nothing/123")
     (by decide) (by decide) (by decide) (by decide) (by decide)⟩

/-- C9: for every byte sequence carried in the Authorization header —
including invalid base64, bytes outside any text encoding, and the
absent/empty value — request handling is a total function terminating in
exactly one of the two normal outcomes, the 401 challenge or the
forwarded call; there is no crash path for malformed client input. -/
theorem c9_no_crash (h : Handler) (w : RW) (a : List Nat) :
    (serveHTTP h w ⟨a⟩).1 = h.fail w ∨
    (serveHTTP h w ⟨a⟩).1 = h.success ⟨a⟩ w := by
  rw [serveHTTP_fst_eq_decision]
  by_cases hd : serveDecision h ⟨a⟩ <;> simp [hd]

/-- C10: a request rejected before step 6 — missing/empty header, header
not exactly two space-separated tokens, scheme mismatch, invalid base64,
or decoded payload without exactly two colon-separated segments — never
reaches the verification predicate: the recorded call list is empty and
the response is the challenge. -/
theorem c10_early_reject_no_predicate (h : Handler) (w : RW) (r : Request)
    (he : earlyReject h r.authorization = true) :
    (serveHTTP h w r).2 = [] ∧ (serveHTTP h w r).1 = h.fail w := by
  have hmain := serveHTTP_of_earlyReject h w r he
  exact ⟨by rw [hmain], by rw [hmain]⟩

/-- Witness for C10: a header with invalid base64 (`Basic #%@`, from the
repository's test) is rejected with no predicate call. -/
theorem c10_early_reject_no_predicate_witness :
    earlyReject hW (goStr "Basic #%@") = true ∧
    ((serveHTTP hW emptyRW ⟨goStr "Basic #%@"⟩).2 = [] ∧
      (serveHTTP hW emptyRW ⟨goStr "Basic #%@"⟩).1 = hW.fail emptyRW) :=
  ⟨by decide,
   c10_early_reject_no_predicate hW emptyRW ⟨goStr "Basic #%@"⟩ (by decide)⟩

/-- Sanity check of the embedding against Go: `strings.Split` on single
spaces. -/
theorem sanity_split : splitOnByte 32 (goStr "Basic askd asdf") =
    [goStr "Basic", goStr "askd", goStr "asdf"] ∧ splitOnByte 32 (goStr "") = [[]] := by
  decide

/-- Sanity check of the embedding against Go base64 on the repository's
test vectors: a valid padded string decodes, empty decodes to empty,
invalid bytes are an error, and encoding matches. -/
theorem sanity_base64 :
    b64Decode (goStr "dGVzdDpub3RoaW5nLzEyMw==") = some (goStr "test:nothing/123") ∧
    b64Decode (goStr "#%@") = none ∧
    b64Decode (goStr "") = some [] ∧
    b64Encode (goStr "a:b:c") = goStr "YTpiOmM=" := by
  decide

end Httpauth
